import Mathlib

/-!
Shallow embedding of the `RiskControl` and `FHERC` (RiskControlFHE) Solidity
contracts of the zama-fhe-riskcontrol repository, together with proofs of the
behavioural properties stated in the repository's specification.

Modelling conventions:
* `uint256` values are `Nat`; Solidity 0.8 checked arithmetic is modelled by
  `cadd`/`cmul`, which return `none` (= revert) when a result would not fit
  below `2 ^ 256`.  Division by a nonzero constant never overflows and is
  plain `Nat` division (truncating, as in the EVM).
* A reverting call is modelled by an `Option` result of `none`: the caller's
  state is unchanged, nothing is stored, no event is emitted.
* `msg.sender` addresses are `Nat`; `block.timestamp` is an explicit argument.
* The `mapping(string => AssessmentResult)` is a total function with the
  all-zero default record, exactly as in the EVM.
* `keccak256(abi.encodePacked s) == keccak256(abi.encodePacked t)` is modelled
  as string equality (collision-freeness of keccak on distinct strings).
* The FHE contract's `euint32` ciphertexts are modelled by their decrypted
  values: `Nat` reduced modulo `2 ^ 32`; FHE arithmetic wraps (no checked
  overflow on encrypted operations).
-/

namespace RiskControl

/-- The modulus 2^256 of `uint256` arithmetic. -/
def MOD : Nat := 2 ^ 256

/-- Checked `uint256` addition: Solidity 0.8 reverts on overflow. -/
def cadd (a b : Nat) : Option Nat :=
  if a + b < MOD then some (a + b) else none

/-- Checked `uint256` multiplication: Solidity 0.8 reverts on overflow. -/
def cmul (a b : Nat) : Option Nat :=
  if a * b < MOD then some (a * b) else none

/-- Model of struct RiskParameters: uint256 incomeMultiplier, uint256 riskThreshold. -/
structure RiskParameters where
  incomeMultiplier : Nat
  riskThreshold : Nat
deriving Repr, DecidableEq

/-- Model of struct AssessmentResult: uint256 creditLimit, uint256 riskScore,
bool approved, string clientId, uint256 timestamp. -/
structure AssessmentResult where
  creditLimit : Nat
  riskScore : Nat
  approved : Bool
  clientId : String
  timestamp : Nat
deriving Repr, DecidableEq

/-- The all-zero record a Solidity mapping yields for an absent key. -/
def defaultResult : AssessmentResult :=
  { creditLimit := 0, riskScore := 0, approved := false, clientId := "", timestamp := 0 }

/-- The three events the contract can emit. -/
inductive Event where
  | assessmentPerformed (clientId : String) (creditLimit riskScore : Nat)
      (approved : Bool) (timestamp : Nat)
  | batchAssessmentPerformed (count timestamp : Nat)
  | parametersUpdated (timestamp : Nat)
deriving Repr, DecidableEq

/-- Contract storage: owner, parameters, the results mapping, the
`allClientIds` array, plus the log of emitted events. -/
structure State where
  owner : Nat
  riskParameters : RiskParameters
  assessmentResults : String → AssessmentResult
  allClientIds : List String
  events : List Event

/-- The constructor: deployer becomes owner, default parameters
`incomeMultiplier = 2`, `riskThreshold = 50`. -/
def initState (deployer : Nat) : State :=
  { owner := deployer
    riskParameters := { incomeMultiplier := 2, riskThreshold := 50 }
    assessmentResults := fun _ => defaultResult
    allClientIds := []
    events := [] }

/-- Model of `clientIdExists`: linear scan of `allClientIds` comparing keccak hashes,
modelled as string equality. -/
def clientIdExists (ids : List String) (clientId : String) : Bool :=
  ids.any (fun x => x = clientId)

/-- Model of `calculateRiskScore`: age factor `_age > 40 ? 40 : (_age * 40) / 40`,
income factor `min(_annualIncome / 10^6 / 1000, 60)`, summed.  Checked
arithmetic on the multiplication and the final addition. -/
def calculateRiskScore (age annualIncome : Nat) : Option Nat :=
  match (if 40 < age then some 40 else (cmul age 40).map (fun t => t / 40)) with
  | none => none
  | some ageFactor =>
    let incomeInDollars := annualIncome / 10 ^ 6
    let incomeFactor :=
      if 60 < incomeInDollars / 1000 then 60 else incomeInDollars / 1000
    cadd ageFactor incomeFactor

/-- Model of `assessRisk`: requires a non-empty client id, computes the score, the
approval flag (`riskScore >= riskThreshold`), the credit limit
(`(_annualIncome / 12) * incomeMultiplier` only when approved), stores the
record, appends the id to `allClientIds` when new, and emits
`AssessmentPerformed`.  Returns the new state and the returned triple. -/
def assessRisk (s : State) (timestamp age annualIncome : Nat) (clientId : String) :
    Option (State × Nat × Nat × Bool) :=
  if clientId = "" then none
  else
    match calculateRiskScore age annualIncome with
    | none => none
    | some riskScore =>
      let approved : Bool := s.riskParameters.riskThreshold ≤ riskScore
      match (if approved then cmul (annualIncome / 12) s.riskParameters.incomeMultiplier
             else some 0) with
      | none => none
      | some creditLimit =>
        let newRec : AssessmentResult :=
          { creditLimit := creditLimit, riskScore := riskScore, approved := approved
            clientId := clientId, timestamp := timestamp }
        let results2 := fun id => if id = clientId then newRec else s.assessmentResults id
        let ids2 := if clientIdExists s.allClientIds clientId then s.allClientIds
                    else s.allClientIds ++ [clientId]
        let ev := Event.assessmentPerformed clientId creditLimit riskScore approved timestamp
        some ({ s with assessmentResults := results2
                       allClientIds := ids2
                       events := s.events ++ [ev] },
              creditLimit, riskScore, approved)

/-- The loop body of `batchAssessRisk`: each item is tried as an isolated
sub-call; success increments the counter, failure leaves the state untouched
and moves on. -/
def batchLoop (timestamp : Nat) (s : State) (items : List (Nat × Nat × String))
    (acc : Nat) : State × Nat :=
  match items with
  | [] => (s, acc)
  | (age, income, cid) :: rest =>
    match assessRisk s timestamp age income cid with
    | some (s', _, _, _) => batchLoop timestamp s' rest (acc + 1)
    | none => batchLoop timestamp s rest acc

/-- Model of `batchAssessRisk`: requires the three arrays to have equal length
(otherwise the whole call reverts), then processes items in order with
per-item failure isolation, finally emitting `BatchAssessmentPerformed`. -/
def batchAssessRisk (s : State) (timestamp : Nat) (ages incomes : List Nat)
    (clientIds : List String) : Option (State × Nat) :=
  if ages.length = incomes.length ∧ incomes.length = clientIds.length then
    let r := batchLoop timestamp s (ages.zip (incomes.zip clientIds)) 0
    some ({ r.1 with events := r.1.events ++ [Event.batchAssessmentPerformed r.2 timestamp] },
          r.2)
  else none

/-- Model of `getAssessmentResult`: reverts on an empty id or when the stored record's
`clientId` field is empty (no assessment found). -/
def getAssessmentResult (s : State) (clientId : String) :
    Option (Nat × Nat × Bool × Nat) :=
  if clientId = "" then none
  else
    let r := s.assessmentResults clientId
    if r.clientId = "" then none
    else some (r.creditLimit, r.riskScore, r.approved, r.timestamp)

/-- Model of `getBatchAssessmentResults`: positional lookup, absent keys give the
default record. -/
def getBatchAssessmentResults (s : State) (clientIds : List String) :
    List AssessmentResult :=
  clientIds.map s.assessmentResults

/-- Model of `getAllClientIds`. -/
def getAllClientIds (s : State) : List String :=
  s.allClientIds

/-- Model of `getAssessmentCount`. -/
def getAssessmentCount (s : State) : Nat :=
  s.allClientIds.length

/-- Model of `updateRiskParameters`: owner-only; replaces both parameters and emits
`ParametersUpdated`.  A non-owner caller reverts (`none`). -/
def updateRiskParameters (s : State) (sender timestamp incomeMultiplier riskThreshold : Nat) :
    Option State :=
  if sender = s.owner then
    some { s with riskParameters :=
                    { incomeMultiplier := incomeMultiplier, riskThreshold := riskThreshold }
                  events := s.events ++ [Event.parametersUpdated timestamp] }
  else none

/-- Model of `getRiskParameters`. -/
def getRiskParameters (s : State) : RiskParameters :=
  s.riskParameters

/-- Model of `transferOwnership`: owner-only, rejects the zero address. -/
def transferOwnership (s : State) (sender newOwner : Nat) : Option State :=
  if sender = s.owner then
    if newOwner = 0 then none
    else some { s with owner := newOwner }
  else none

/-- Model of `getOwner`. -/
def getOwner (s : State) : Nat :=
  s.owner

/-- One state-mutating call of the contract (a reverting call leaves no
trace, so only successful calls appear as steps). -/
inductive Step : State → State → Prop where
  | assess (t a i : Nat) (c : String) (out : Nat × Nat × Bool) {s s' : State} :
      assessRisk s t a i c = some (s', out) → Step s s'
  | batch (t : Nat) (ages incomes : List Nat) (cids : List String) (n : Nat)
      {s s' : State} :
      batchAssessRisk s t ages incomes cids = some (s', n) → Step s s'
  | update (sender t m th : Nat) {s s' : State} :
      updateRiskParameters s sender t m th = some s' → Step s s'
  | transfer (sender o : Nat) {s s' : State} :
      transferOwnership s sender o = some s' → Step s s'

/-- States reachable from deployment by any sequence of successful calls. -/
inductive Reachable : State → Prop where
  | init (deployer : Nat) : Reachable (initState deployer)
  | step {s s' : State} : Reachable s → Step s s' → Reachable s'

/-- The `(creditLimit, riskScore, approved)` triple returned by a successful
`assessRisk` call. -/
def returnedTriple (r : Option (State × Nat × Nat × Bool)) : Option (Nat × Nat × Bool) :=
  r.map Prod.snd

/-- The `successCount` returned by a successful `batchAssessRisk` call. -/
def batchCount (r : Option (State × Nat)) : Option Nat :=
  r.map Prod.snd

/-- Boolean check, on an optional batch result, that every non-empty id of
`cids` has a stored record whose `clientId` field equals the id. -/
def batchPersisted (cids : List String) (r : Option (State × Nat)) : Bool :=
  match r with
  | some (s, _) => cids.all (fun c => c = "" || (s.assessmentResults c).clientId == c)
  | none => false

/-- State after `assessRisk(35, 50_000_000_000, "client-1")` at timestamp 7
on a fresh deployment (the spec's worked example). -/
def exampleState1 : State :=
  match assessRisk (initState 0) 7 35 50000000000 "client-1" with
  | some r => r.1
  | none => initState 0

/-- State after the owner subsequently raises the risk threshold to 90
(`updateRiskParameters(2, 90)` at timestamp 8). -/
def raisedThresholdState : State :=
  match updateRiskParameters exampleState1 0 8 2 90 with
  | some s => s
  | none => exampleState1

/-- State after the owner lowers the risk threshold to 40
(`updateRiskParameters(2, 40)` at timestamp 3) on a fresh deployment. -/
def thresholdFortyState : State :=
  match updateRiskParameters (initState 0) 0 3 2 40 with
  | some s => s
  | none => initState 0

/-- State after `assessRisk(20, 3_000_000_000, "bob")` at timestamp 1 on a
fresh deployment. -/
def bobState1 : State :=
  match assessRisk (initState 0) 1 20 3000000000 "bob" with
  | some r => r.1
  | none => initState 0

/-- State after re-assessing the same client:
`assessRisk(25, 4_000_000_000, "bob")` at timestamp 2. -/
def bobState2 : State :=
  match assessRisk bobState1 2 25 4000000000 "bob" with
  | some r => r.1
  | none => bobState1

/-- The structural storage invariant: the client-id index holds no
duplicates, the stored `clientId` field equals the key exactly on indexed
ids (and is empty off the index), and indexed ids are non-empty. -/
def Inv (s : State) : Prop :=
  s.allClientIds.Nodup ∧
  (∀ id, (s.assessmentResults id).clientId = (if id ∈ s.allClientIds then id else "")) ∧
  (∀ id, id ∈ s.allClientIds → id ≠ "")

end RiskControl

namespace FHERC

/-- The modulus 2^32 of `euint32` ciphertext arithmetic. -/
def MOD32 : Nat := 2 ^ 32

/-- Decryption semantics of the FHE primitives used by `RiskControlFHE.sol`:
each operation is stated on the decrypted values of its operands.  Encrypted
arithmetic wraps modulo 2^32 (no checked overflow on ciphertexts). -/
def asEuint32 (n : Nat) : Nat := n % MOD32

/-- Semantics of `FHE.add` on decrypted values. -/
def fheAdd (a b : Nat) : Nat := (a + b) % MOD32

/-- Semantics of `FHE.mul` on decrypted values. -/
def fheMul (a b : Nat) : Nat := (a * b) % MOD32

/-- Semantics of `FHE.div` (division by a public constant) on decrypted values. -/
def fheDiv (a b : Nat) : Nat := a / b

/-- Semantics of `FHE.gt`: strict greater-than, returning the decrypted `ebool`. -/
def fheGt (a b : Nat) : Bool := b < a

/-- Semantics of `FHE.cmux`: branchless select. -/
def fheCmux (c : Bool) (a b : Nat) : Nat := if c then a else b

/-- Model of `calculateEncryptedRiskScore`, stated on decrypted values:
`cmux(age > 40, 40, (age*40)/40) + cmux(inDollars/1000 > 60, 60, inDollars/1000)`
with `inDollars = income / 10^6`. -/
def calculateEncryptedRiskScore (age income : Nat) : Nat :=
  let ageFactor := fheCmux (fheGt age (asEuint32 40)) (asEuint32 40)
      (fheDiv (fheMul age (asEuint32 40)) (asEuint32 40))
  let incomeInDollars := fheDiv income (asEuint32 (10 ^ 6))
  let incomeFactor := fheCmux (fheGt (fheDiv incomeInDollars (asEuint32 1000)) (asEuint32 60))
      (asEuint32 60) (fheDiv incomeInDollars (asEuint32 1000))
  fheAdd ageFactor incomeFactor

/-- The computational core of `assessRiskEncrypted`, on decrypted values:
score, then `approved = FHE.gt(score, riskThreshold)` (STRICT greater-than),
then `creditLimit = cmux(approved, (income/12)*incomeMultiplier, 0)`.
Returns `(creditLimit, riskScore, approved)` as decrypted by the authorized
viewer of the sealed outputs. -/
def assessRiskEncrypted (p : RiskControl.RiskParameters) (age income : Nat) :
    Nat × Nat × Bool :=
  let encryptedRiskScore := calculateEncryptedRiskScore age income
  let encryptedApproved := fheGt encryptedRiskScore p.riskThreshold
  let encryptedCreditLimit := fheMul (fheDiv income (asEuint32 12)) p.incomeMultiplier
  let encryptedCreditLimit := fheCmux encryptedApproved encryptedCreditLimit (asEuint32 0)
  (encryptedCreditLimit, encryptedRiskScore, encryptedApproved)

end FHERC

namespace RiskControl

/-- Small numbers are below the uint256 modulus. -/
theorem lt_MOD_of_le_1600 {x : Nat} (h : x ≤ 1600) : x < MOD := by
  have h2 : (1600 : Nat) < MOD := by unfold MOD; norm_num
  omega

/-- The function `calculateRiskScore` never reverts and computes
`min(age, 40) + min(income / 10^6 / 1000, 60)`. -/
theorem calculateRiskScore_eq (age income : Nat) :
    calculateRiskScore age income =
      some (min age 40 + min (income / 10 ^ 6 / 1000) 60) := by
  have hface : (if 40 < age then some 40 else (cmul age 40).map (fun t => t / 40))
      = some (min age 40) := by
    by_cases h : 40 < age
    · rw [if_pos h, Nat.min_eq_right (Nat.le_of_lt h)]
    · have hle : age ≤ 40 := Nat.le_of_not_lt h
      have hmul : age * 40 < MOD :=
        lt_MOD_of_le_1600 (Nat.mul_le_mul_right 40 hle)
      rw [if_neg h]
      unfold cmul
      rw [if_pos hmul]
      simp only [Option.map_some']
      rw [Nat.mul_div_cancel _ (by norm_num : (0:Nat) < 40),
        Nat.min_eq_left hle]
  have hfinc : (if 60 < income / 10 ^ 6 / 1000 then 60 else income / 10 ^ 6 / 1000)
      = min (income / 10 ^ 6 / 1000) 60 := by
    by_cases h : 60 < income / 10 ^ 6 / 1000
    · rw [if_pos h, Nat.min_eq_right (Nat.le_of_lt h)]
    · rw [if_neg h, Nat.min_eq_left (Nat.le_of_not_lt h)]
  unfold calculateRiskScore
  rw [hface]
  simp only [hfinc]
  unfold cadd
  rw [if_pos]
  exact lt_MOD_of_le_1600
    (by
      have h1 : min age 40 ≤ 40 := Nat.min_le_right _ _
      have h2 : min (income / 10 ^ 6 / 1000) 60 ≤ 60 := Nat.min_le_right _ _
      omega)

/-- Inversion principle for a successful `assessRisk` call: characterises the
returned triple and every field of the post-state. -/
theorem assessRisk_some {s s' : State} {t a i cl rs : Nat} {c : String} {ap : Bool}
    (h : assessRisk s t a i c = some (s', cl, rs, ap)) :
    c ≠ "" ∧
    rs = min a 40 + min (i / 10 ^ 6 / 1000) 60 ∧
    ap = decide (s.riskParameters.riskThreshold ≤ rs) ∧
    cl = (if ap then i / 12 * s.riskParameters.incomeMultiplier else 0) ∧
    s'.riskParameters = s.riskParameters ∧
    s'.owner = s.owner ∧
    s'.assessmentResults c =
      { creditLimit := cl, riskScore := rs, approved := ap
        clientId := c, timestamp := t } ∧
    (∀ id, id ≠ c → s'.assessmentResults id = s.assessmentResults id) ∧
    s'.allClientIds =
      (if clientIdExists s.allClientIds c then s.allClientIds
       else s.allClientIds ++ [c]) ∧
    s'.events = s.events ++ [Event.assessmentPerformed c cl rs ap t] := by
  by_cases hc : c = ""
  · rw [assessRisk, if_pos hc] at h
    exact absurd h (by simp)
  · rw [assessRisk, if_neg hc, calculateRiskScore_eq] at h
    simp only [] at h
    by_cases hap : s.riskParameters.riskThreshold ≤ min a 40 + min (i / 10 ^ 6 / 1000) 60
    · rw [if_pos (by simpa using hap)] at h
      unfold cmul at h
      by_cases hov : i / 12 * s.riskParameters.incomeMultiplier < MOD
      · rw [if_pos hov] at h
        simp only [Option.some.injEq, Prod.mk.injEq] at h
        obtain ⟨hs', hcl, hrs, hap'⟩ := h
        subst hs' hcl hrs hap'
        refine ⟨hc, rfl, by simp [hap], ?_, rfl, rfl, by simp, ?_, rfl, by simp [hap]⟩
        · split
          next => rfl
          next hnot => exact absurd (decide_eq_true hap) hnot
        · intro id hid
          simp [hid]
      · rw [if_neg hov] at h
        exact absurd h (by simp)
    · rw [if_neg (by simpa using hap)] at h
      simp only [Option.some.injEq, Prod.mk.injEq] at h
      obtain ⟨hs', hcl, hrs, hap'⟩ := h
      subst hs' hcl hrs hap'
      refine ⟨hc, rfl, by simp [hap], ?_, rfl, rfl, by simp, ?_, rfl, by simp [hap]⟩
      · split
        next hpos => exact absurd (of_decide_eq_true hpos) hap
        next => rfl
      · intro id hid
        simp [hid]

/-- The call `assessRisk` succeeds whenever the client id is non-empty and the credit
limit multiplication cannot overflow. -/
theorem assessRisk_succeeds (s : State) (t a i : Nat) (c : String) (hc : c ≠ "")
    (hov : i / 12 * s.riskParameters.incomeMultiplier < MOD) :
    ∃ s' cl rs ap, assessRisk s t a i c = some (s', cl, rs, ap) := by
  rw [assessRisk, if_neg hc, calculateRiskScore_eq]
  simp only []
  by_cases hap : s.riskParameters.riskThreshold ≤ min a 40 + min (i / 10 ^ 6 / 1000) 60
  · rw [if_pos (by simpa using hap)]
    unfold cmul
    rw [if_pos hov]
    exact ⟨_, _, _, _, rfl⟩
  · rw [if_neg (by simpa using hap)]
    exact ⟨_, _, _, _, rfl⟩

/-- The keccak-based linear scan decides exactly list membership. -/
theorem clientIdExists_iff (ids : List String) (c : String) :
    clientIdExists ids c = true ↔ c ∈ ids := by
  simp [clientIdExists]

/-- A successful `assessRisk` call preserves the storage invariant. -/
theorem assess_preserves_inv {s s' : State} {t a i : Nat} {c : String}
    {out : Nat × Nat × Bool} (h : assessRisk s t a i c = some (s', out))
    (hinv : Inv s) : Inv s' := by
  obtain ⟨hc, -, -, -, -, -, h7, h8, h9, -⟩ := assessRisk_some h
  obtain ⟨hnd, hfield, hne⟩ := hinv
  refine ⟨?_, ?_, ?_⟩
  · rw [h9]
    by_cases hex : clientIdExists s.allClientIds c = true
    · rw [if_pos hex]
      exact hnd
    · rw [if_neg hex]
      have hcnot : c ∉ s.allClientIds := fun hmem => hex ((clientIdExists_iff _ _).mpr hmem)
      simp [List.nodup_append, hnd, hcnot]
  · intro id
    by_cases hid : id = c
    · subst hid
      have hmem : id ∈ s'.allClientIds := by
        rw [h9]
        by_cases hex : clientIdExists s.allClientIds id = true
        · rw [if_pos hex]
          exact (clientIdExists_iff _ _).mp hex
        · rw [if_neg hex]
          exact List.mem_append_right _ (by simp)
      rw [h7, if_pos hmem]
    · have hmm : id ∈ s'.allClientIds ↔ id ∈ s.allClientIds := by
        rw [h9]
        by_cases hex : clientIdExists s.allClientIds c = true
        · rw [if_pos hex]
        · rw [if_neg hex]
          constructor
          · intro hm
            rcases List.mem_append.mp hm with hm1 | hm2
            · exact hm1
            · exact absurd (List.mem_singleton.mp hm2) hid
          · exact fun hm => List.mem_append_left _ hm
      rw [h8 id hid, hfield id]
      by_cases hm2 : id ∈ s.allClientIds
      · rw [if_pos hm2, if_pos (hmm.mpr hm2)]
      · rw [if_neg hm2, if_neg (fun hm => hm2 (hmm.mp hm))]
  · intro id hmem
    rw [h9] at hmem
    by_cases hex : clientIdExists s.allClientIds c = true
    · rw [if_pos hex] at hmem
      exact hne id hmem
    · rw [if_neg hex] at hmem
      rcases List.mem_append.mp hmem with hm1 | hm2
      · exact hne id hm1
      · rw [List.mem_singleton.mp hm2]
        exact hc

/-- Any property preserved by successful single assessments is preserved by
the batch loop. -/
theorem batchLoop_preserves (P : State → Prop)
    (hP : ∀ {s s' : State} {t a i : Nat} {c : String} {out : Nat × Nat × Bool},
        assessRisk s t a i c = some (s', out) → P s → P s')
    (t : Nat) :
    ∀ (items : List (Nat × Nat × String)) (s : State) (acc : Nat),
      P s → P (batchLoop t s items acc).1 := by
  intro items
  induction items with
  | nil =>
    intro s acc hs
    exact hs
  | cons it rest ih =>
    intro s acc hs
    obtain ⟨a, i, c⟩ := it
    rw [batchLoop]
    rcases hcall : assessRisk s t a i c with _ | ⟨s2, out⟩
    · simp only [hcall]
      exact ih s acc hs
    · simp only [hcall]
      exact ih s2 (acc + 1) (hP hcall hs)

/-- A successful `batchAssessRisk` call preserves the storage invariant. -/
theorem batch_preserves_inv {s s' : State} {t n : Nat} {ages incomes : List Nat}
    {cids : List String} (h : batchAssessRisk s t ages incomes cids = some (s', n))
    (hinv : Inv s) : Inv s' := by
  rw [batchAssessRisk] at h
  split at h
  · simp only [Option.some.injEq, Prod.mk.injEq] at h
    obtain ⟨h1, -⟩ := h
    rw [← h1]
    exact batchLoop_preserves Inv (fun hc hi => assess_preserves_inv hc hi) t
      (ages.zip (incomes.zip cids)) s 0 hinv
  · exact Option.noConfusion h

/-- The call `updateRiskParameters` leaves the ledger untouched. -/
theorem update_preserves_inv {s s' : State} {sender t m th : Nat}
    (h : updateRiskParameters s sender t m th = some s') (hinv : Inv s) : Inv s' := by
  rw [updateRiskParameters] at h
  split at h
  · obtain rfl : _ = s' := Option.some.inj h
    exact hinv
  · exact Option.noConfusion h

/-- The call `transferOwnership` leaves the ledger untouched. -/
theorem transfer_preserves_inv {s s' : State} {sender o : Nat}
    (h : transferOwnership s sender o = some s') (hinv : Inv s) : Inv s' := by
  rw [transferOwnership] at h
  split at h
  · split at h
    · exact Option.noConfusion h
    · obtain rfl : _ = s' := Option.some.inj h
      exact hinv
  · exact Option.noConfusion h

/-- Every step of the contract preserves the storage invariant. -/
theorem step_inv {s s' : State} (hs : Step s s') (hinv : Inv s) : Inv s' := by
  cases hs with
  | assess t a i c out h => exact assess_preserves_inv h hinv
  | batch t ages incomes cids n h => exact batch_preserves_inv h hinv
  | update sender t m th h => exact update_preserves_inv h hinv
  | transfer sender o h => exact transfer_preserves_inv h hinv

/-- The storage invariant holds in every reachable state. -/
theorem reachable_inv {s : State} (h : Reachable s) : Inv s := by
  induction h with
  | init d =>
    refine ⟨List.nodup_nil, fun id => ?_, fun id hmem => ?_⟩
    · simp [initState, defaultResult]
    · simp [initState] at hmem
  | step hr hstep ih => exact step_inv hstep ih

/-- Full specification of the batch loop when no credit-limit multiplication
can overflow: the parameters survive, the counter counts exactly the items
with a non-empty id, every such item ends up stored under its id, and
previously well-keyed records stay well-keyed. -/
theorem batchLoop_spec (t : Nat) :
    ∀ (items : List (Nat × Nat × String)) (s : State) (acc : Nat),
      (∀ it ∈ items, it.2.1 / 12 * s.riskParameters.incomeMultiplier < MOD) →
      (batchLoop t s items acc).1.riskParameters = s.riskParameters ∧
      (batchLoop t s items acc).2 = acc + items.countP (fun it => it.2.2 ≠ "") ∧
      (∀ it ∈ items, it.2.2 ≠ "" →
        ((batchLoop t s items acc).1.assessmentResults it.2.2).clientId = it.2.2) ∧
      (∀ c, (s.assessmentResults c).clientId = c →
        ((batchLoop t s items acc).1.assessmentResults c).clientId = c) := by
  intro items
  induction items with
  | nil =>
    intro s acc hov
    exact ⟨rfl, by simp [batchLoop], fun it hit => absurd hit (List.not_mem_nil it),
      fun c hc => hc⟩
  | cons it rest ih =>
    intro s acc hov
    obtain ⟨a, i, c⟩ := it
    by_cases hc : c = ""
    · have hfail : assessRisk s t a i c = none := by rw [assessRisk, if_pos hc]
      rw [batchLoop]
      simp only [hfail]
      have hov' : ∀ it ∈ rest, it.2.1 / 12 * s.riskParameters.incomeMultiplier < MOD :=
        fun it hit => hov it (List.mem_cons_of_mem _ hit)
      obtain ⟨g1, g2, g3, g4⟩ := ih s acc hov'
      refine ⟨g1, ?_, ?_, g4⟩
      · rw [g2, List.countP_cons]
        simp [hc]
      · intro it hit hne
        rcases List.mem_cons.mp hit with heq | hmem
        · subst heq
          exact absurd hc hne
        · exact g3 it hmem hne
    · have hovc : i / 12 * s.riskParameters.incomeMultiplier < MOD :=
        hov (a, i, c) (List.mem_cons_self _ _)
      obtain ⟨s2, cl, rs, ap, hcall⟩ := assessRisk_succeeds s t a i c hc hovc
      obtain ⟨-, -, -, -, hparams2, -, h7, h8, -, -⟩ := assessRisk_some hcall
      rw [batchLoop]
      simp only [hcall]
      have hov' : ∀ it ∈ rest, it.2.1 / 12 * s2.riskParameters.incomeMultiplier < MOD := by
        intro it hit
        rw [hparams2]
        exact hov it (List.mem_cons_of_mem _ hit)
      obtain ⟨g1, g2, g3, g4⟩ := ih s2 (acc + 1) hov'
      refine ⟨by rw [g1, hparams2], ?_, ?_, ?_⟩
      · rw [g2, List.countP_cons]
        simp only [hc, decide_not]
        simp
        omega
      · intro it hit hne
        rcases List.mem_cons.mp hit with heq | hmem
        · subst heq
          apply g4
          rw [h7]
        · exact g3 it hmem hne
      · intro c' hc'
        apply g4
        by_cases hcc : c' = c
        · subst hcc
          rw [h7]
        · rw [h8 c' hcc]
          exact hc'

/-- Zipping three equal-length arrays and projecting the third component
gives back the third array. -/
theorem zip_third_eq (ages incomes : List Nat) (cids : List String)
    (h1 : ages.length = incomes.length) (h2 : incomes.length = cids.length) :
    (ages.zip (incomes.zip cids)).map (fun it => it.2.2) = cids := by
  induction ages generalizing incomes cids with
  | nil =>
    have hi : incomes = [] := List.length_eq_zero.mp h1.symm
    subst hi
    have hcs : cids = [] := List.length_eq_zero.mp h2.symm
    subst hcs
    rfl
  | cons a as ih =>
    cases incomes with
    | nil => simp at h1
    | cons i is =>
      cases cids with
      | nil => simp at h2
      | cons c cs =>
        simp only [List.zip_cons_cons, List.map_cons]
        rw [ih is cs (by simpa using h1) (by simpa using h2)]

/-- Splitting a list of ids by emptiness: the non-empty count plus the count
of `""` is the length. -/
theorem countP_ne_empty_add_count (l : List String) :
    l.countP (fun c => c ≠ "") + l.count "" = l.length := by
  induction l with
  | nil => rfl
  | cons c cs ih =>
    simp only [decide_not] at ih
    by_cases hc : c = ""
    · subst hc
      simp [List.countP_cons, List.count_cons, decide_not]
      omega
    · simp [List.countP_cons, List.count_cons, decide_not, hc]
      omega

end RiskControl

/-- C4: for every age and income, `calculateRiskScore(age, income)` equals
`min(age, 40) + min((income / 10^6) / 1000, 60)` with truncating division
(so the age factor is `age` for `age ≤ 40` and `40` beyond), and the
returned risk score lies in `[0, 100]`.  The call never reverts, hence the
`some`. -/
theorem C4_calculateRiskScore_closed_form (age income : Nat) :
    RiskControl.calculateRiskScore age income =
      some (min age 40 + min (income / 10 ^ 6 / 1000) 60) ∧
    min age 40 + min (income / 10 ^ 6 / 1000) 60 ≤ 100 ∧
    min age 40 = (if 40 < age then 40 else age) := by
  refine ⟨RiskControl.calculateRiskScore_eq age income, ?_, ?_⟩
  · have h1 : min age 40 ≤ 40 := Nat.min_le_right _ _
    have h2 : min (income / 10 ^ 6 / 1000) 60 ≤ 60 := Nat.min_le_right _ _
    omega
  · by_cases h : 40 < age
    · rw [if_pos h, Nat.min_eq_right (Nat.le_of_lt h)]
    · rw [if_neg h, Nat.min_eq_left (Nat.le_of_not_lt h)]

/-- C3 counterexample: on a fresh deployment (default parameters), the spec's
example call `assess(35, 50_000_000_000, "client-1")` does NOT return a
credit limit of 8332: the code computes `(50_000_000_000 / 12) * 2`, i.e.
8_333_333_332 micro-USDT (the spec's 8332 figure divided the income already
converted to whole units). -/
theorem C3_creditLimit_is_not_8332 :
    RiskControl.returnedTriple
        (RiskControl.assessRisk (RiskControl.initState 0) 7 35 50000000000 "client-1") ≠
      some (8332, 85, true) := by
  decide

/-- C3 amended: the example call returns `riskScore = 85`, `approved = true`
and `creditLimit = 8_333_333_332` (= `(50_000_000_000 / 12) * 2` with
truncating division on the raw 6-decimal income). -/
theorem C3_example_assessment :
    RiskControl.returnedTriple
        (RiskControl.assessRisk (RiskControl.initState 0) 7 35 50000000000 "client-1") =
      some (8333333332, 85, true) := by
  decide

/-- C1 failing input: with parameters `(incomeMultiplier = 2,
riskThreshold = 40)` (reachable via `updateRiskParameters`) and inputs
`age = 41`, `income = 12_000_000`, both paths compute `riskScore = 40`, equal
to the threshold — but the Plain path approves (it tests
`riskScore >= riskThreshold`) and grants `creditLimit = 2_000_000`, while the
Confidential path decrypts to `approved = false`, `creditLimit = 0` (it tests
`FHE.gt`, a STRICT greater-than).  The contractually required
Confidential/Plain equivalence is violated at the threshold. -/
theorem C1_fhe_path_diverges_at_threshold :
    RiskControl.Reachable RiskControl.thresholdFortyState ∧
    RiskControl.returnedTriple
        (RiskControl.assessRisk RiskControl.thresholdFortyState 5 41 12000000 "c1") =
      some (2000000, 40, true) ∧
    FHERC.assessRiskEncrypted { incomeMultiplier := 2, riskThreshold := 40 } 41 12000000 =
      (0, 40, false) := by
  refine ⟨?_, by decide, by decide⟩
  exact RiskControl.Reachable.step (RiskControl.Reachable.init 0)
    (RiskControl.Step.update 0 3 2 40 rfl)

/-- C10: with the default parameters, `assessRisk` reverts exactly on an
empty client id: for any uint256 `age` and `income` (the latter below 2^256)
no checked multiplication can overflow — `(age * 40)` is only evaluated when
`age ≤ 40`, and `(income / 12) * 2 ≤ income < 2^256`. -/
theorem C10_assessRisk_fails_iff_empty_id (s : RiskControl.State) (t a i : Nat)
    (c : String)
    (hparams : s.riskParameters = { incomeMultiplier := 2, riskThreshold := 50 })
    (hi : i < RiskControl.MOD) :
    (RiskControl.assessRisk s t a i c = none ↔ c = "") := by
  constructor
  · intro hnone
    by_contra hc
    have hov : i / 12 * s.riskParameters.incomeMultiplier < RiskControl.MOD := by
      rw [hparams]
      show i / 12 * 2 < RiskControl.MOD
      have h1 : i / 12 * 2 ≤ i / 12 * 12 := Nat.mul_le_mul (le_refl _) (by norm_num)
      have h2 : i / 12 * 12 ≤ i := Nat.div_mul_le_self i 12
      omega
    obtain ⟨s', cl, rs, ap, h⟩ := RiskControl.assessRisk_succeeds s t a i c hc hov
    rw [h] at hnone
    exact Option.noConfusion hnone
  · intro hc
    rw [RiskControl.assessRisk, if_pos hc]

/-- Witness for C10 at a concrete input: the fresh deployment has the default
parameters and a non-empty id does not revert. -/
theorem C10_witness :
    (RiskControl.assessRisk (RiskControl.initState 0) 0 0 0 "z" = none ↔ "z" = "") :=
  C10_assessRisk_fails_iff_empty_id (RiskControl.initState 0) 0 0 0 "z" rfl (by decide)

/-- C2 counterexample: assess `("client-1", 35, 50_000_000_000)` under the
default threshold 50 (record stored with `approved = true`, `riskScore = 85`),
then let the owner raise the threshold to 90.  In the resulting reachable
state the stored record has `approved = true` although
`riskScore = 85 < 90 = riskParameters.riskThreshold`: the claimed invariant
relative to the CURRENT parameters is not preserved by
`updateRiskParameters`, which never re-evaluates stored records. -/
theorem C2_invariant_broken_by_updateRiskParameters :
    RiskControl.Reachable RiskControl.raisedThresholdState ∧
    (RiskControl.raisedThresholdState.assessmentResults "client-1").approved = true ∧
    ¬ (RiskControl.raisedThresholdState.riskParameters.riskThreshold ≤
        (RiskControl.raisedThresholdState.assessmentResults "client-1").riskScore) := by
  refine ⟨?_, by decide, by decide⟩
  exact RiskControl.Reachable.step
    (RiskControl.Reachable.step (RiskControl.Reachable.init 0)
      (RiskControl.Step.assess 7 35 50000000000 "client-1" (8333333332, 85, true)
        (show RiskControl.assessRisk (RiskControl.initState 0) 7 35 50000000000 "client-1" =
            some (RiskControl.exampleState1, 8333333332, 85, true) from rfl)))
    (RiskControl.Step.update 0 8 2 90
      (show RiskControl.updateRiskParameters RiskControl.exampleState1 0 8 2 90 =
          some RiskControl.raisedThresholdState from rfl))

/-- C2 amended: every record satisfies the invariant with respect to the
parameters in force WHEN IT WAS WRITTEN: a successful `assessRisk` call
stores a record with `approved = (riskScore >= riskThreshold)` and
`creditLimit = approved ? floor(income/12) * incomeMultiplier : 0` for the
call-time parameters (which the call leaves unchanged).  The invariant for
the current parameters can be invalidated by `updateRiskParameters`. -/
theorem C2_record_invariant_at_write {s s' : RiskControl.State} {t a i cl rs : Nat}
    {c : String} {ap : Bool}
    (h : RiskControl.assessRisk s t a i c = some (s', cl, rs, ap)) :
    ap = decide (s.riskParameters.riskThreshold ≤ rs) ∧
    cl = (if ap then i / 12 * s.riskParameters.incomeMultiplier else 0) ∧
    s'.assessmentResults c =
      { creditLimit := cl, riskScore := rs, approved := ap
        clientId := c, timestamp := t } ∧
    s'.riskParameters = s.riskParameters := by
  obtain ⟨-, -, h3, h4, h5, -, h7, -, -, -⟩ := RiskControl.assessRisk_some h
  exact ⟨h3, h4, h7, h5⟩

/-- Witness for the amended C2 at the worked example. -/
theorem C2_record_invariant_witness :
    true = decide ((50 : Nat) ≤ 85) ∧
    (8333333332 : Nat) = (if true then 50000000000 / 12 * 2 else 0) ∧
    RiskControl.exampleState1.assessmentResults "client-1" =
      { creditLimit := 8333333332, riskScore := 85, approved := true
        clientId := "client-1", timestamp := 7 } ∧
    RiskControl.exampleState1.riskParameters = { incomeMultiplier := 2, riskThreshold := 50 } :=
  C2_record_invariant_at_write
    (show RiskControl.assessRisk (RiskControl.initState 0) 7 35 50000000000 "client-1" =
        some (RiskControl.exampleState1, 8333333332, 85, true) from rfl)

/-- C7: a batch call whose three arrays do not all have the same length
reverts whole (`none`): no record is written, no index entry added, no event
emitted — the pre-state is untouched. -/
theorem C7_batch_length_mismatch (s : RiskControl.State) (t : Nat)
    (ages incomes : List Nat) (cids : List String)
    (h : ¬ (ages.length = incomes.length ∧ incomes.length = cids.length)) :
    RiskControl.batchAssessRisk s t ages incomes cids = none := by
  rw [RiskControl.batchAssessRisk, if_neg h]

/-- Witness for C7 at a concrete mismatched input. -/
theorem C7_witness :
    RiskControl.batchAssessRisk (RiskControl.initState 0) 0 [30] [] [] = none :=
  C7_batch_length_mismatch (RiskControl.initState 0) 0 [30] [] [] (by decide)

/-- C8: `updateRiskParameters` called by any identity other than the owner
reverts (`none`): the parameters, and all other state, are unchanged and no
`ParametersUpdated` event is emitted. -/
theorem C8_update_unauthorized (s : RiskControl.State) (sender t m th : Nat)
    (h : sender ≠ s.owner) :
    RiskControl.updateRiskParameters s sender t m th = none := by
  rw [RiskControl.updateRiskParameters, if_neg h]

/-- Witness for C8: a non-owner (address 1, owner is 0) cannot update. -/
theorem C8_witness :
    RiskControl.updateRiskParameters (RiskControl.initState 0) 1 9 7 7 = none :=
  C8_update_unauthorized (RiskControl.initState 0) 1 9 7 7 (by decide)

/-- C5: assessing the same client id twice (from any reachable state) leaves
exactly one slot for it in the client-id index, and the stored record — and
`getAssessmentResult` — reflect only the second call's inputs and timestamp
(upsert overwrites). -/
theorem C5_reassessment_upserts {s s1 s2 : RiskControl.State}
    {t1 a1 i1 t2 a2 i2 cl1 rs1 cl2 rs2 : Nat} {c : String} {ap1 ap2 : Bool}
    (hreach : RiskControl.Reachable s)
    (h1 : RiskControl.assessRisk s t1 a1 i1 c = some (s1, cl1, rs1, ap1))
    (h2 : RiskControl.assessRisk s1 t2 a2 i2 c = some (s2, cl2, rs2, ap2)) :
    s2.allClientIds.count c = 1 ∧
    s2.assessmentResults c =
      { creditLimit := cl2, riskScore := rs2, approved := ap2
        clientId := c, timestamp := t2 } ∧
    RiskControl.getAssessmentResult s2 c = some (cl2, rs2, ap2, t2) := by
  have hinv1 : RiskControl.Inv s1 :=
    RiskControl.step_inv (RiskControl.Step.assess t1 a1 i1 c (cl1, rs1, ap1) h1)
      (RiskControl.reachable_inv hreach)
  obtain ⟨hc, -, -, -, -, -, -, -, h9a, -⟩ := RiskControl.assessRisk_some h1
  obtain ⟨-, -, -, -, -, -, h7b, -, h9b, -⟩ := RiskControl.assessRisk_some h2
  have hmem1 : c ∈ s1.allClientIds := by
    rw [h9a]
    by_cases hex : RiskControl.clientIdExists s.allClientIds c = true
    · rw [if_pos hex]
      exact (RiskControl.clientIdExists_iff _ _).mp hex
    · rw [if_neg hex]
      exact List.mem_append_right _ (by simp)
  have hids2 : s2.allClientIds = s1.allClientIds := by
    rw [h9b, if_pos ((RiskControl.clientIdExists_iff _ _).mpr hmem1)]
  refine ⟨?_, h7b, ?_⟩
  · rw [hids2]
    exact List.count_eq_one_of_mem hinv1.1 hmem1
  · rw [RiskControl.getAssessmentResult, if_neg hc, h7b]
    simp [hc]

/-- Witness for C5: re-assessing `"bob"` on a fresh deployment. -/
theorem C5_witness :
    RiskControl.bobState2.allClientIds.count "bob" = 1 ∧
    RiskControl.bobState2.assessmentResults "bob" =
      { creditLimit := 0, riskScore := 29, approved := false
        clientId := "bob", timestamp := 2 } ∧
    RiskControl.getAssessmentResult RiskControl.bobState2 "bob" = some (0, 29, false, 2) :=
  C5_reassessment_upserts (RiskControl.Reachable.init 0)
    (show RiskControl.assessRisk (RiskControl.initState 0) 1 20 3000000000 "bob" =
        some (RiskControl.bobState1, 0, 23, false) from rfl)
    (show RiskControl.assessRisk RiskControl.bobState1 2 25 4000000000 "bob" =
        some (RiskControl.bobState2, 0, 29, false) from rfl)

/-- C9: in every reachable state the stored `clientId` field equals the key
exactly on the ids that `getAllClientIds` enumerates (and is empty
otherwise), so the non-empty field is a faithful existence sentinel and
`getAssessmentResult` succeeds precisely on the enumerated ids. -/
theorem C9_enumeration_sound {s : RiskControl.State} (hreach : RiskControl.Reachable s)
    (id : String) :
    (s.assessmentResults id).clientId = (if id ∈ s.allClientIds then id else "") ∧
    ((s.assessmentResults id).clientId ≠ "" ↔ id ∈ s.allClientIds) ∧
    (RiskControl.getAssessmentResult s id).isSome = decide (id ∈ s.allClientIds) := by
  obtain ⟨hnd, hfield, hne⟩ := RiskControl.reachable_inv hreach
  refine ⟨hfield id, ?_, ?_⟩
  · by_cases hmem : id ∈ s.allClientIds
    · rw [hfield id, if_pos hmem]
      exact ⟨fun _ => hmem, fun _ => hne id hmem⟩
    · rw [hfield id, if_neg hmem]
      simp [hmem]
  · by_cases hmem : id ∈ s.allClientIds
    · have hid : id ≠ "" := hne id hmem
      rw [RiskControl.getAssessmentResult, if_neg hid]
      dsimp only
      rw [hfield id, if_pos hmem, if_neg hid]
      simp [hmem]
    · by_cases hid : id = ""
      · rw [RiskControl.getAssessmentResult, if_pos hid]
        simp [hmem]
      · rw [RiskControl.getAssessmentResult, if_neg hid]
        dsimp only
        rw [hfield id, if_neg hmem, if_pos rfl]
        simp [hmem]

/-- C6: a batch whose id array contains exactly one empty id (all other ids
non-empty), with arrays of equal length `N` and no credit-limit overflow
possible (true in particular for the default parameters), processes the
items in order, skips exactly the empty-id item, returns
`successCount = N - 1`, and persists a record under every non-empty id; the
failing item neither counts nor aborts the rest. -/
theorem C6_batch_isolation {s : RiskControl.State} {t : Nat}
    {ages incomes : List Nat} {cids : List String}
    (h1 : ages.length = incomes.length) (h2 : incomes.length = cids.length)
    (hone : cids.count "" = 1)
    (hov : ∀ i ∈ incomes, i / 12 * s.riskParameters.incomeMultiplier < RiskControl.MOD) :
    RiskControl.batchCount (RiskControl.batchAssessRisk s t ages incomes cids) =
      some (cids.length - 1) ∧
    RiskControl.batchPersisted cids (RiskControl.batchAssessRisk s t ages incomes cids) =
      true := by
  have hovit : ∀ it ∈ ages.zip (incomes.zip cids),
      it.2.1 / 12 * s.riskParameters.incomeMultiplier < RiskControl.MOD := by
    intro it hit
    obtain ⟨a, i, c⟩ := it
    exact hov i (List.of_mem_zip (List.of_mem_zip hit).2).1
  obtain ⟨g1, g2, g3, g4⟩ :=
    RiskControl.batchLoop_spec t (ages.zip (incomes.zip cids)) s 0 hovit
  have hmap := RiskControl.zip_third_eq ages incomes cids h1 h2
  have hcount : (ages.zip (incomes.zip cids)).countP (fun it => it.2.2 ≠ "") =
      cids.length - 1 := by
    have hsplit := RiskControl.countP_ne_empty_add_count cids
    have hstep : (ages.zip (incomes.zip cids)).countP (fun it => it.2.2 ≠ "") =
        cids.countP (fun c => c ≠ "") := by
      have hm := List.countP_map (fun c => decide (c ≠ "")) (fun it : Nat × Nat × String => it.2.2)
        (ages.zip (incomes.zip cids))
      rw [hmap] at hm
      exact hm.symm
    omega
  rw [RiskControl.batchAssessRisk, if_pos ⟨h1, h2⟩]
  dsimp only
  constructor
  · show some (RiskControl.batchLoop t s (ages.zip (incomes.zip cids)) 0).2 =
      some (cids.length - 1)
    rw [g2, Nat.zero_add, hcount]
  · rw [RiskControl.batchPersisted, List.all_eq_true]
    intro c hc
    by_cases hce : c = ""
    · simp [hce]
    · have hex : ∃ it ∈ ages.zip (incomes.zip cids), it.2.2 = c := by
        rw [← hmap] at hc
        exact List.mem_map.mp hc
      obtain ⟨it, hit, heq⟩ := hex
      have hstored := g3 it hit (by rw [heq]; exact hce)
      rw [heq] at hstored
      simp [hce, hstored]

/-- Witness for C6: a two-item batch with one empty id persists the valid
record and reports one success. -/
theorem C6_witness :
    RiskControl.batchCount
        (RiskControl.batchAssessRisk (RiskControl.initState 0) 4 [30, 20]
          [1000000, 2000000] ["x", ""]) = some 1 ∧
    RiskControl.batchPersisted ["x", ""]
        (RiskControl.batchAssessRisk (RiskControl.initState 0) 4 [30, 20]
          [1000000, 2000000] ["x", ""]) = true :=
  C6_batch_isolation rfl rfl (by decide) (by decide)

/-- Witness for C9 in the state holding the single assessed id `"bob"`. -/
theorem C9_witness :
    (RiskControl.bobState1.assessmentResults "bob").clientId =
      (if "bob" ∈ RiskControl.bobState1.allClientIds then "bob" else "") ∧
    ((RiskControl.bobState1.assessmentResults "bob").clientId ≠ "" ↔
      "bob" ∈ RiskControl.bobState1.allClientIds) ∧
    (RiskControl.getAssessmentResult RiskControl.bobState1 "bob").isSome =
      decide ("bob" ∈ RiskControl.bobState1.allClientIds) :=
  C9_enumeration_sound
    (RiskControl.Reachable.step (RiskControl.Reachable.init 0)
      (RiskControl.Step.assess 1 20 3000000000 "bob" (0, 23, false)
        (show RiskControl.assessRisk (RiskControl.initState 0) 1 20 3000000000 "bob" =
            some (RiskControl.bobState1, 0, 23, false) from rfl)))
    "bob"
